import Mathlib

/-!
# Verification of the contribution synchronization engine (easybuild.tools.github)

A shallow embedding, in Lean 4, of the branching logic of
`easybuild/tools/github.py`: the repository cache (`download_repo`,
`fetch_latest_commit_sha`), the PR content resolver
(`fetch_easyconfigs_from_pr`), the patch attribution resolver
(`is_patch_for`, `det_patch_specs`, `find_software_name_for_patch`), the
eligibility evaluator (`check_pr_eligible_to_merge`, `reasons_for_closing`),
the publication steps of `_easyconfigs_pr_common`, and the dry-run behaviour
of `post_comment_in_issue`, `push_branch_to_github`, `close_pr` and
`merge_pr`.

External collaborators (the REST transport, the git driver, the filesystem,
the easyconfig parser) are modelled as explicit inputs or as a small explicit
state, so every embedded function is executable and every observable side
effect (network download, comment post, push, state change) appears in the
returned value.  Python strings are Lean `String`s; the handful of string
primitives the source uses (`split`, `rstrip`, `in`, `startswith`,
`endswith`, `os.path.basename`, `os.path.join`) are defined below on
character lists so that all definitions reduce in the kernel.
-/

/-! ## String primitives (models of the Python built-ins used by the source) -/

/-- Split a character list on a separator character; models Python
`str.split(sep)` for a one-character separator (always returns at least one
group, empty input gives one empty group). -/
def chSplit (sep : Char) : List Char → List (List Char)
  | [] => [[]]
  | c :: rest =>
    let r := chSplit sep rest
    if c = sep then [] :: r
    else
      match r with
      | [] => [[c]]
      | g :: gs => (c :: g) :: gs

/-- Python `s.split(sep)` for a one-character separator. -/
def strSplit (s : String) (sep : Char) : List String :=
  (chSplit sep s.data).map String.mk

/-- Is `needle` a contiguous infix of `hay`? -/
def chInfix (needle hay : List Char) : Bool :=
  match hay with
  | [] => needle.isEmpty
  | _ :: rest => needle.isPrefixOf hay || chInfix needle rest

/-- Python `sub in hay` (substring test). -/
def strContains (hay sub : String) : Bool :=
  chInfix sub.data hay.data

/-- Python `s.startswith(pre)`. -/
def strStartsWith (s pre : String) : Bool :=
  pre.data.isPrefixOf s.data

/-- Python `s.endswith(suf)`. -/
def strEndsWith (s suf : String) : Bool :=
  suf.data.isSuffixOf s.data

/-- Python `s.rstrip()`: drop trailing whitespace. -/
def rstrip (s : String) : String :=
  String.mk ((s.data.reverse.dropWhile Char.isWhitespace).reverse)

/-- Python `s.split(newline)[0]`: the first line of a text. -/
def firstLine (s : String) : String :=
  (strSplit s '\n').headD ""

/-- Python `os.path.join(a, b)` (posix, relative second component). -/
def pjoin (a b : String) : String := a ++ "/" ++ b

/-- Python `os.path.basename(p)` (posix). -/
def basename (p : String) : String :=
  (strSplit p '/').getLastD p

/-- `os.path.sep.join(p.split(os.path.sep)[-3:])`: the last (at most) three
path components of `p`, re-joined — used by `fetch_easyconfigs_from_pr` to
place a patched file under the destination directory. -/
def lastThreeComponents (p : String) : String :=
  let parts := strSplit p '/'
  String.intercalate "/" (parts.drop (parts.length - 3))

/-! ## Pull-request records

Model of the `pr_data` dictionary returned by `fetch_pr_data(..., full=True)`
(a fully hydrated GitHub pull-request record), restricted to the fields the
embedded functions read. -/

/-- One entry of `pr_data[reviews]`. -/
structure Review where
  state : String
  userLogin : String
deriving DecidableEq, Repr

/-- One entry of `pr_data[issue_comments]`. -/
structure Comment where
  body : String
deriving DecidableEq, Repr

/-- `pr_data[milestone]` when not `None`. -/
structure Milestone where
  title : String
deriving DecidableEq, Repr

/-- A fully hydrated pull-request record.  `issueComments` and `reviews` are
in the order GitHub returns them (oldest first); `updatedAt` is the
`updated_at` timestamp in seconds since the epoch (the source parses the
ISO string with `datetime.strptime`). -/
structure PullRequestData where
  number : Nat
  baseRef : String
  baseRepoOwner : String
  baseRepoName : String
  statusLastCommit : String
  issueComments : List Comment
  reviews : List Review
  milestone : Option Milestone
  userLogin : String
  title : String
  headSha : String
  merged : Bool
  state : String
  updatedAt : Int
deriving DecidableEq, Repr

def GITHUB_EASYCONFIGS_REPO : String := "easybuild-easyconfigs"

/-! ## Eligibility evaluator: `check_pr_eligible_to_merge` (lines 973-1049) -/

/-- Header pattern of a test-report comment. -/
def testReportHeader : String := "Test report by @"

/-- Model of `re.compile(r"^Test report by @\S+").search(body)`: without
`re.MULTILINE` the `^` anchors at the start of the string, so the body must
begin with the header followed by at least one non-whitespace character. -/
def matchesTestReportRegex (body : String) : Bool :=
  testReportHeader.data.isPrefixOf body.data &&
    match body.data.drop testReportHeader.data.length with
    | [] => false
    | c :: _ => !c.isWhitespace

/-- The comment scan of lines 1013-1025: walk the comments given to it in
order (the caller passes `issue_comments[::-1]`, newest first); at the first
comment matching the test-report pattern that contains `SUCCESS` return
success, at the first one that contains `FAILED` return failure; a matching
comment containing neither marker only triggers a warning and the scan
continues with the next (older) comment. -/
def scanTestReports : List Comment → Option Bool
  | [] => none
  | c :: rest =>
    if matchesTestReportRegex c.body then
      if strContains c.body "SUCCESS" then some true
      else if strContains c.body "FAILED" then some false
      else scanTestReports rest
    else scanTestReports rest

/-- `check_pr_eligible_to_merge(pr_data)` (lines 973-1049).  `res` starts
`True` and every failed criterion sets it to `False` via `not_eligible`;
no criterion ever sets it back to `True`. -/
def check_pr_eligible_to_merge (pr : PullRequestData) : Bool :=
  let res := true
  -- check target branch, must be develop
  let res := if pr.baseRef = "develop" then res else false
  -- check test suite result, Travis must give green light;
  -- pending / error / failure / unknown each fail with distinct detail text
  let res := if pr.statusLastCommit = "success" then res else false
  -- check for successful test report (only for the easyconfigs repository,
  -- comments checked in reverse order)
  let res :=
    if pr.baseRepoName = GITHUB_EASYCONFIGS_REPO then
      match scanTestReports pr.issueComments.reverse with
      | some true => res
      | some false => false
      | none => false
    else res
  -- check for approved review
  let approved_review_by := (pr.reviews.filter (fun r => r.state = "APPROVED")).map (·.userLogin)
  let res := if approved_review_by.isEmpty then false else res
  -- check whether a milestone is set
  let res := if pr.milestone.isSome then res else false
  res

/-- The most recent comment whose body matches the test-report header
pattern, regardless of whether it contains a SUCCESS/FAILED marker.  This is
the comment that claim C2, read literally, says must contain `SUCCESS`. -/
def mostRecentTestReport (pr : PullRequestData) : Option Comment :=
  pr.issueComments.reverse.find? (fun c => matchesTestReportRegex c.body)

/-- The claim C2 eligibility criteria, written exactly as the claim states
them: the comment found by scanning newest-to-oldest for a body matching the
test-report header must contain `SUCCESS`. -/
def eligibleAsClaimed (pr : PullRequestData) : Bool :=
  (pr.baseRef = "develop") &&
  (pr.statusLastCommit = "success") &&
  (if pr.baseRepoName = GITHUB_EASYCONFIGS_REPO then
    match mostRecentTestReport pr with
    | some c => strContains c.body "SUCCESS"
    | none => false
  else true) &&
  pr.reviews.any (fun r => r.state = "APPROVED") &&
  pr.milestone.isSome

/-- The most recent test-report comment that contains a `SUCCESS` or
`FAILED` marker — the comment that actually decides the test-report
criterion in the source. -/
def mostRecentDecisiveTestReport (pr : PullRequestData) : Option Comment :=
  pr.issueComments.reverse.find?
    (fun c => matchesTestReportRegex c.body &&
      (strContains c.body "SUCCESS" || strContains c.body "FAILED"))

/-! ## Close-reason inference: `reasons_for_closing` (lines 1052-1127)

The function walks, for every easyconfig changed by the PR, directories
under every robot path: the archive directory keyed by the toolchain name
(`<robot>/__archive__/<t>/<tcname>`) looking for archived toolchains, and
the package directory keyed by the package name (`<robot>/<n>/<name>`)
looking for newer versions.  The parsed easyconfigs those walks yield are
modelled as functions of the directory key carried by `RobotPath`; the
parsed easyconfigs of the PR itself (`fetch_easyconfigs_from_pr` followed by
`EasyConfigParser(...).get_config_dict()`) are the `prFiles` input. -/

/-- The fields of a parsed PR easyconfig read by `reasons_for_closing`.
`version` is the list of numeric components compared by
`distutils.version.LooseVersion`. -/
structure PrEasyconfigDict where
  name : String
  version : List Nat
  tcName : String
  tcVersion : String
deriving DecidableEq, Repr

/-- The fields of a parsed easyconfig found under the archive directory. -/
structure ArchiveEC where
  name : String
  version : String
  versionsuffix : Option String
  easyblock : Option String
deriving DecidableEq, Repr

/-- One robot path: what the two `os.walk` traversals of
`reasons_for_closing` yield, as a function of the walked directory key
(toolchain name for the archive walk, package name for the package walk). -/
structure RobotPath where
  archiveWalk : String → List ArchiveEC
  pkgWalk : String → List (List Nat)

/-- `LooseVersion(a) < LooseVersion(b)` on numeric component lists
(Python list comparison, lexicographic with shorter-prefix smaller). -/
def looseVersionLt : List Nat → List Nat → Bool
  | [], [] => false
  | [], _ :: _ => true
  | _ :: _, [] => false
  | a :: as, b :: bs =>
    if a < b then true
    else if a = b then looseVersionLt as bs
    else false

/-- `pr_tc = name-version` of the toolchain of the PR easyconfig (line 1090). -/
def prTc (ec : PrEasyconfigDict) : String := ec.tcName ++ "-" ++ ec.tcVersion

/-- `archived_tc` as assembled on lines 1100-1103: `name-version` plus the
`versionsuffix` value when that key is present in the parsed dict. -/
def archivedTcString (a : ArchiveEC) : String :=
  match a.versionsuffix with
  | some vs => a.name ++ "-" ++ a.version ++ vs
  | none => a.name ++ "-" ++ a.version

/-- The archive-walk files that make `reasons_for_closing` report an
archived toolchain for `ec`: easyblock `Toolchain` and an exact
`pr_tc == archived_tc` match (lines 1095-1106). -/
def archiveMatches (rp : RobotPath) (ec : PrEasyconfigDict) : List ArchiveEC :=
  (rp.archiveWalk ec.tcName).filter
    (fun a => decide (a.easyblock = some "Toolchain") && decide (archivedTcString a = prTc ec))

/-- `newer_versions` for `ec` within one robot path (lines 1109-1115). -/
def newerVersions (rp : RobotPath) (ec : PrEasyconfigDict) : List (List Nat) :=
  (rp.pkgWalk ec.name).filter (fun v => looseVersionLt ec.version v)

/-- `uses_archived_tc`: the PR easyconfigs appended, once per matching
archive file per robot path, by line 1106. -/
def uses_archived_tc_list (prFiles : List PrEasyconfigDict) (robotPaths : List RobotPath) :
    List PrEasyconfigDict :=
  prFiles.flatMap (fun ec => robotPaths.flatMap (fun rp => (archiveMatches rp ec).map (fun _ => ec)))

/-- `obsoleted`: the PR easyconfigs appended, once per robot path with a
nonempty `newer_versions` set, by line 1119. -/
def obsoleted_list (prFiles : List PrEasyconfigDict) (robotPaths : List RobotPath) :
    List PrEasyconfigDict :=
  prFiles.flatMap (fun ec => robotPaths.flatMap
    (fun rp => if (newerVersions rp ec).isEmpty then [] else [ec]))

/-- `reasons_for_closing(pr_data)` (lines 1052-1127), restricted to its
return value (the printed diagnostics do not feed into it).  `nowSec` models
`datetime.now()`; the PR easyconfigs and robot-path walks are explicit
inputs (see above). -/
def reasons_for_closing (pr : PullRequestData) (prFiles : List PrEasyconfigDict)
    (robotPaths : List RobotPath) (nowSec : Int) : List String :=
  let possible_reasons : List String := []
  -- check if PR is inactive for more than 6 months
  let possible_reasons :=
    if nowSec - pr.updatedAt > 180 * 86400 then possible_reasons ++ ["inactive"]
    else possible_reasons
  let uses_archived_tc := uses_archived_tc_list prFiles robotPaths
  let obsoleted := obsoleted_list prFiles robotPaths
  let possible_reasons :=
    if uses_archived_tc.isEmpty then possible_reasons else possible_reasons ++ ["archived"]
  -- if any([e[name] in pr_data[title] for e in obsoleted]): append obsolete
  let possible_reasons :=
    if obsoleted.any (fun e => strContains pr.title e.name) then possible_reasons ++ ["obsolete"]
    else possible_reasons
  possible_reasons

/-! ## Repository cache: `fetch_latest_commit_sha` (lines 290-318) and
`download_repo` (lines 321-368)

The local filesystem is a small explicit state (an association list of file
contents plus a directory list); the forge is a `Remote` value: the branches
listing the API returns and the name of the top-level directory inside the
branch archive (normally `<repo>-<branch>`; the `isdir` check of line 362
exists precisely to catch an upstream change of that layout).  Every call of
`download_file` on repository content increments `downloads`. -/

/-- The local filesystem: file contents and directories. -/
structure FS where
  files : List (String × String)
  dirs : List String
deriving DecidableEq, Repr

/-- `read_file` (returns `none` when the path does not exist). -/
def FS.readFile (fs : FS) (p : String) : Option String :=
  (fs.files.find? (fun e => decide (e.1 = p))).map (·.2)

/-- `write_file(..., forced=True)`: create or overwrite. -/
def FS.writeFile (fs : FS) (p c : String) : FS :=
  { fs with files := (p, c) :: fs.files.filter (fun e => !(decide (e.1 = p))) }

/-- `os.path.isdir`. -/
def FS.isDir (fs : FS) (p : String) : Bool :=
  fs.dirs.any (fun d => decide (d = p))

/-- `mkdir(p, parents=True)` (idempotent). -/
def FS.mkdirp (fs : FS) (p : String) : FS :=
  if fs.isDir p then fs else { fs with dirs := p :: fs.dirs }

/-- One entry of the `/repos/<account>/<repo>/branches` listing. -/
structure BranchEntry where
  name : String
  commitSha : String
deriving DecidableEq, Repr

/-- The API answer to the branches request: HTTP status and entries. -/
structure BranchesResponse where
  status : Nat
  branches : List BranchEntry
deriving DecidableEq, Repr

def GITHUB_MAX_PER_PAGE : Nat := 100

/-- `fetch_latest_commit_sha(repo, account, branch, ...)` (lines 290-318):
scan the branch listing for the branch name, return its tip commit SHA;
fail if the response status is off-nominal or the branch is absent (with a
truncation hint when the listing is at the page-size cap). -/
def fetch_latest_commit_sha (repo account : String) (resp : BranchesResponse)
    (branch : String) : Except String String :=
  if resp.status ≠ 200 then
    .error ("Failed to get latest commit sha for branch " ++ branch ++ " from "
      ++ account ++ "/" ++ repo)
  else
    match resp.branches.find? (fun e => decide (e.name = branch)) with
    | some e => .ok e.commitSha
    | none =>
      let error_msg := "No branch with name " ++ branch ++ " found in repo "
        ++ account ++ "/" ++ repo
      let error_msg :=
        if resp.branches.length ≥ GITHUB_MAX_PER_PAGE then
          error_msg ++ "; only " ++ toString resp.branches.length
            ++ " branches were checked (too many branches in "
            ++ account ++ "/" ++ repo ++ "?)"
        else error_msg
      .error (error_msg ++ ": "
        ++ String.intercalate ", " (resp.branches.map (·.name)))

/-- The remote side of `download_repo`: the branches listing and the
top-level directory name inside the downloaded `tar.gz` archive. -/
structure Remote where
  branchesResponse : BranchesResponse
  archiveTopDir : String
deriving DecidableEq, Repr

/-- Local state threaded through `download_repo`: the filesystem and the
number of content downloads performed so far. -/
structure IOState where
  fs : FS
  downloads : Nat
deriving DecidableEq, Repr

/-- The extraction path `download_repo` returns for a cached or fresh
snapshot: `<path>/<account>/<repo>-<branch>`. -/
def downloadCachePath (path account repo branch : String) : String :=
  pjoin (pjoin path account) (repo ++ "-" ++ branch)

/-- The sidecar marker file `latest-sha` inside the extraction path. -/
def markerPath (path account repo branch : String) : String :=
  pjoin (downloadCachePath path account repo branch) "latest-sha"

/-- Lines 345-350: the snapshot is reusable when the marker file exists and
its first line, trailing whitespace stripped, equals the tip SHA. -/
def markerFresh (fs : FS) (marker sha : String) : Bool :=
  match fs.readFile marker with
  | some txt => decide (rstrip (firstLine txt) = sha)
  | none => false

/-- `download_repo(repo, branch, account, path, ...)` (lines 321-368) with
`path` already provided (the `tempfile.mkdtemp` default is outside the
model). -/
def download_repo (repo branch account path : String) (remote : Remote) (st : IOState) :
    IOState × Except String String :=
  -- add account subdir; mkdir(path, parents=True)
  let path := pjoin path account
  let st := { st with fs := st.fs.mkdirp path }
  let extracted_dir_name := repo ++ "-" ++ branch
  let base_name := branch ++ ".tar.gz"
  match fetch_latest_commit_sha repo account remote.branchesResponse branch with
  | .error e => (st, .error e)
  | .ok latest_commit_sha =>
    let expected_path := pjoin path extracted_dir_name
    let latest_sha_path := pjoin expected_path "latest-sha"
    -- check if directory already exists, do not download if the latest-sha
    -- marker indicates that it is up to date
    if markerFresh st.fs latest_sha_path latest_commit_sha then
      (st, .ok expected_path)
    else
      -- download_file(base_name, url, target_path, forced=True)
      let target_path := pjoin path base_name
      let st := { st with
        fs := st.fs.writeFile target_path
          ("archive of " ++ account ++ "/" ++ repo ++ " at " ++ latest_commit_sha),
        downloads := st.downloads + 1 }
      -- extract_file(target_path, path, forced=True) extracts into `path`
      -- (materializing the archive top-level directory) and returns `path`
      let st := { st with fs := st.fs.mkdirp (pjoin path remote.archiveTopDir) }
      let extracted_path := pjoin path extracted_dir_name
      if st.fs.isDir extracted_path then
        let st := { st with fs := st.fs.writeFile latest_sha_path latest_commit_sha }
        (st, .ok extracted_path)
      else
        (st, .error (extracted_path ++ " should exist and contain the repo "
          ++ repo ++ " at branch " ++ branch))

/-- A PR that changes `foo` version 1.0 while version 2.0 exists in the
indexed tree, but whose title does not mention `foo`. -/
def prObsoleteNoTitleMatch : PullRequestData where
  number := 8
  baseRef := "develop"
  baseRepoOwner := "easybuilders"
  baseRepoName := "easybuild-easyconfigs"
  statusLastCommit := "success"
  issueComments := []
  reviews := []
  milestone := none
  userLogin := "alice"
  title := "just a cleanup"
  headSha := "feedbeef"
  merged := false
  state := "open"
  updatedAt := 0

/-- The parsed easyconfig changed by `prObsoleteNoTitleMatch`. -/
def prFileFoo : PrEasyconfigDict := ⟨"foo", [1, 0], "GCC", "8.2.0"⟩

/-- A robot path whose indexed tree holds `foo` version 2.0 and no archived
toolchains. -/
def robotPathFoo : RobotPath where
  archiveWalk := fun _ => []
  pkgWalk := fun n => if n = "foo" then [[2, 0]] else []

/-- A concrete fully hydrated pull-request record whose newest test-report
comment contains neither `SUCCESS` nor `FAILED` (e.g. a truncated report),
while an older test report was successful.  All other criteria pass. -/
def prWithSkippedReport : PullRequestData where
  number := 7
  baseRef := "develop"
  baseRepoOwner := "easybuilders"
  baseRepoName := "easybuild-easyconfigs"
  statusLastCommit := "success"
  issueComments :=
    [⟨"Test report by @alice\nSUCCESS\nBuild succeeded for 1 out of 1"⟩,
     ⟨"Test report by @bob\nsee attached gist"⟩]
  reviews := [⟨"APPROVED", "carol"⟩]
  milestone := some ⟨"4.3.1"⟩
  userLogin := "alice"
  title := "example"
  headSha := "0123abcd"
  merged := false
  state := "open"
  updatedAt := 0

/-- The filesystem after the download and extraction steps of a cache miss,
before the layout verification of line 362. -/
def extractionFS (repo branch account path : String) (remote : Remote) (fs : FS)
    (sha : String) : FS :=
  ((fs.mkdirp (pjoin path account)).writeFile
      (pjoin (pjoin path account) (branch ++ ".tar.gz"))
      ("archive of " ++ account ++ "/" ++ repo ++ " at " ++ sha)).mkdirp
    (pjoin (pjoin path account) remote.archiveTopDir)

/-! ## Publication: the staging / diff / commit / push tail of
`_easyconfigs_pr_common` (lines 786-814)

The git driver is external; each of its calls becomes an event.  `diff_stat`
is the output of `git diff --cached --stat` against the checked-out branch
tip, computed by git and therefore an input here; Python truthiness makes
the empty string the empty diff. -/

/-- One call into the git driver. -/
inductive GitEvent
  | staged (paths : List String)
  | removed (paths : List String)
  | committed (msg : String)
  | pushed (branch : String)
deriving DecidableEq, Repr

/-- Lines 786-814: stage the categorized file lists, stage deletions, take
the cached diff, refuse an empty diff, otherwise commit and push. -/
def stage_commit_push (ec_paths_in_repo dep_paths_in_repo patch_paths_in_repo : List String)
    (deleted_paths : List String) (diff_stat : String) (commit_msg pr_branch : String) :
    List GitEvent × Except String Unit :=
  -- stage new/modified easyconfigs and dependency easyconfigs
  let evs := [GitEvent.staged ec_paths_in_repo, GitEvent.staged dep_paths_in_repo]
  -- stage new/modified patch files (only when the change set has patch files)
  let evs := if patch_paths_in_repo.isEmpty then evs
    else evs ++ [GitEvent.staged patch_paths_in_repo]
  -- stage deleted files
  let evs := if deleted_paths.isEmpty then evs else evs ++ [GitEvent.removed deleted_paths]
  if diff_stat = "" then
    (evs, .error ("No changed files found when comparing to current develop branch. "
      ++ "Refused to make empty pull request."))
  else
    (evs ++ [GitEvent.committed commit_msg, GitEvent.pushed pr_branch], .ok ())

/-! ## PR content resolver: `fetch_easyconfigs_from_pr` (lines 371-460)

`patched_files` is the file list `det_patched_files` extracts from the
downloaded diff (deleted files filtered out); `repo_target_branch` is the
path `download_repo` returned for the PR base branch; `applyOk` is whether
`apply_patch(diff, ..., use_git_am=True)` succeeds (its `EasyBuildError` is
caught on lines 425-426). -/

def GITHUB_RAW : String := "https://raw.githubusercontent.com"

def GITHUB_STATE_CLOSED : String := "closed"

/-- The observable outcome of the strategy dispatch of lines 411-448. -/
structure FetchResult where
  /-- whether `apply_patch` was called (line 421) -/
  applyAttempted : Bool
  /-- the (url, destination) of each `download_file` call of line 440 -/
  perFileDownloads : List (String × String)
  /-- the `print_warning` of line 431 -/
  warnedClosedPR : Bool
  /-- `final_path` after the dispatch -/
  finalPath : String
  /-- whether the symlink block of lines 445-448 ran -/
  symlinked : Bool
deriving DecidableEq, Repr

/-- Lines 391-448 of `fetch_easyconfigs_from_pr`: pick the reconstruction
strategy from the PR state and the patch-apply outcome. -/
def fetch_easyconfigs_strategy (pr : PullRequestData)
    (github_account path repo_target_branch : String)
    (patched_files : List String) (applyOk : Bool) : FetchResult :=
  let pr_merged := pr.merged
  let pr_closed := decide (pr.state = GITHUB_STATE_CLOSED) && !pr_merged
  -- final_path starts as None; merged PRs use the current target branch,
  -- open PRs first try to apply the PR patch on top of it
  let step : Option String × Bool :=
    if pr_merged then (some repo_target_branch, false)
    else if !pr_closed then
      (if applyOk then some repo_target_branch else none, true)
    else (none, false)
  match step with
  | (some final_path, applyAttempted) =>
    { applyAttempted := applyAttempted
      perFileDownloads := []
      warnedClosedPR := false
      finalPath := final_path
      symlinked := decide (final_path ≠ path) }
  | (none, applyAttempted) =>
    -- obtain most recent version of patched files, one download per file,
    -- from the raw-content host at the PR head commit SHA
    { applyAttempted := applyAttempted
      perFileDownloads := patched_files.map (fun pf =>
        (GITHUB_RAW ++ "/" ++ github_account ++ "/" ++ GITHUB_EASYCONFIGS_REPO ++ "/"
            ++ pr.headSha ++ "/" ++ pf,
         pjoin path (lastThreeComponents pf)))
      warnedClosedPR := pr_closed
      finalPath := path
      symlinked := false }

/-- The sanity-check loop of lines 450-458 over the non-test patched files
(`ex` is `os.path.exists` on the destination tree).  The error text of line
458 starts with the word Couldnt followed by `find path to patched file <path>` in the source; the apostrophe of that word is elided here. -/
def sanity_go (path : String) (ex : String → Bool) : List String → Except String (List String)
  | [] => .ok []
  | pf :: rest =>
    let full_path := pjoin path (lastThreeComponents pf)
    if ex full_path then (sanity_go path ex rest).map (fun l => full_path :: l)
    else .error ("Could not find path to patched file " ++ full_path)

/-- Lines 450-460: every patched file not under `test/` must exist at its
expected path under the destination; the returned list are those paths. -/
def sanity_check_files (path : String) (patched_files : List String) (ex : String → Bool) :
    Except String (List String) :=
  sanity_go path ex (patched_files.filter (fun f => !(strStartsWith f "test/")))

/-! ## Patch attribution: `is_patch_for` (lines 881-899), `det_patch_specs`
(lines 902-929), `find_software_name_for_patch` (lines 932-970) -/

/-- One entry of an easyconfig `patches` list: a plain filename or a
tuple/list whose first element is the filename. -/
inductive PatchEntry
  | plain (fn : String)
  | withArg (fn : String) (arg : String)
deriving DecidableEq, Repr

def PatchEntry.filename : PatchEntry → String
  | .plain fn => fn
  | .withArg fn _ => fn

/-- One entry of `exts_list`: only 3-element tuples whose third element is
an options dict contribute patches (lines 887-890); `patches` is
the `patches` entry of the options dict, defaulting to the empty list. -/
inductive ExtEntry
  | bare (name : String)
  | withOpts (name version : String) (patches : List PatchEntry)
deriving DecidableEq, Repr

/-- The fields of a parsed easyconfig record read by the patch attribution
resolver. -/
structure EasyConfig where
  name : String
  patches : List PatchEntry
  extsList : List ExtEntry
deriving DecidableEq, Repr

/-- The patch entries contributed by the extension list (lines 887-890). -/
def extensionPatches (ec : EasyConfig) : List PatchEntry :=
  ec.extsList.flatMap (fun e => match e with
    | .withOpts _ _ ps => ps
    | .bare _ => [])

/-- `is_patch_for(patch_name, ec)` (lines 881-899): exact filename match
against the easyconfig patch list extended with the patch lists of its
extensions. -/
def is_patch_for (patch_name : String) (ec : EasyConfig) : Bool :=
  let patches := ec.patches ++ extensionPatches ec
  patches.any (fun p => decide (p.filename = patch_name))

/-- One file met by the `os.walk` of `find_software_name_for_patch`:
its basename, its raw text, and its parse result (`none` when
`process_easyconfig` raises; such files are skipped on lines 964-965). -/
structure ScanFile where
  fn : String
  rawtxt : String
  parsed : Option (List EasyConfig)
deriving DecidableEq, Repr

/-- The pre-filter of lines 944-951: not the template, not a `.py` file, and
the raw text contains the substring `patches`. -/
def eligibleScanFile (f : ScanFile) : Bool :=
  decide (f.fn ≠ "TEMPLATE.eb") && !(strEndsWith f.fn ".py") && strContains f.rawtxt "patches"

/-- The scan loop of lines 954-967: first parsed easyconfig matching the
patch wins; parse failures are skipped. -/
def findSoftwareGo (patch_name : String) : List ScanFile → Option String
  | [] => none
  | f :: rest =>
    match f.parsed with
    | none => findSoftwareGo patch_name rest
    | some ecs =>
      match ecs.find? (fun ec => is_patch_for patch_name ec) with
      | some ec => some ec.name
      | none => findSoftwareGo patch_name rest

/-- `find_software_name_for_patch(patch_name, ec_dirs)` (lines 932-970):
the exhaustive scan over the search roots. -/
def find_software_name_for_patch (patch_name : String) (ec_dirs : List (List ScanFile)) :
    Option String :=
  let all_ecs := ec_dirs.flatMap (fun d => d.filter eligibleScanFile)
  findSoftwareGo patch_name all_ecs

/-- The per-patch-file body of the `det_patch_specs` loop (lines 906-927).
The result carries the `(patch_path, software_name)` pair and whether the
exhaustive scan ran for this file. -/
def det_patch_spec1 (patch_path : String) (ecs : List EasyConfig)
    (ec_dirs : List (List ScanFile)) : Except String ((String × String) × Bool) :=
  let patch_file := basename patch_path
  -- consider patch lists of easyconfigs being provided
  match ecs.find? (fun ec => is_patch_for patch_file ec) with
  | some ec => .ok ((patch_path, ec.name), false)
  | none =>
    -- fall back on scanning all eb files for patches
    match find_software_name_for_patch patch_file ec_dirs with
    | some soft_name => .ok ((patch_path, soft_name), true)
    | none => .error ("Failed to determine software name to which patch file "
        ++ patch_path ++ " relates")

/-- `det_patch_specs(patch_paths, file_info, ec_dirs)` (lines 902-929). -/
def det_patch_specs (patch_paths : List String) (ecs : List EasyConfig)
    (ec_dirs : List (List ScanFile)) : Except String (List ((String × String) × Bool)) :=
  match patch_paths with
  | [] => .ok []
  | pp :: rest =>
    match det_patch_spec1 pp ecs ec_dirs with
    | .error e => .error e
    | .ok r => (det_patch_specs rest ecs ec_dirs).map (fun l => r :: l)

/-! ## Dry-run behaviour: `post_comment_in_issue` (lines 502-525),
`push_branch_to_github` (lines 843-878), `close_pr` (lines 1130-1196),
`merge_pr` (lines 1226-1267)

Quotes inside the printed message templates are elided (the source wraps
some interpolated values in single quotes). -/

/-- The observable side effects of one forge-facing operation: printed
messages, comment posts, PR state-change posts, git pushes, and locally
created git remotes. -/
structure ForgeTrace where
  msgs : List String
  commentPosts : List (Nat × String)
  statePosts : List (Nat × String)
  pushes : List String
  remotesCreated : Nat
deriving DecidableEq, Repr

def ForgeTrace.append (a b : ForgeTrace) : ForgeTrace :=
  ⟨a.msgs ++ b.msgs, a.commentPosts ++ b.commentPosts, a.statePosts ++ b.statePosts,
   a.pushes ++ b.pushes, a.remotesCreated + b.remotesCreated⟩

/-- `post_comment_in_issue(issue, txt, ...)` (lines 502-525): build the
message, prefix it with `[DRY RUN] ` in dry-run mode, print it, and post the
comment only when not in dry-run mode. -/
def post_comment_in_issue (dry_run : Bool) (issue : Nat) (repo txt : String) : ForgeTrace :=
  let msg := "Adding comment to " ++ repo ++ " issue #" ++ toString issue ++ ": " ++ txt
  let msg := if dry_run then "[DRY RUN] " ++ msg else msg
  { msgs := [msg]
    commentPosts := if dry_run then [] else [(issue, txt)]
    statePosts := []
    pushes := []
    remotesCreated := 0 }

/-- `push_branch_to_github(git_repo, target_account, target_repo, branch)`
(lines 843-878): a salted remote toward the target is created in both modes
(line 854, before the dry-run test); the push message gets a ` [DRY RUN]`
suffix and the push itself is skipped in dry-run mode. -/
def push_branch_to_github (dry_run : Bool)
    (target_account target_repo branch remote_name : String) : ForgeTrace :=
  let github_url := "git@github.com:" ++ target_account ++ "/" ++ target_repo ++ ".git"
  let push_branch_msg := "pushing branch " ++ branch ++ " to remote " ++ remote_name
    ++ " (" ++ github_url ++ ")"
  if dry_run then
    { msgs := [push_branch_msg ++ " [DRY RUN]"]
      commentPosts := [], statePosts := [], pushes := [], remotesCreated := 1 }
  else
    { msgs := [push_branch_msg]
      commentPosts := [], statePosts := [], pushes := [branch], remotesCreated := 1 }

/-- The retest entry of `VALID_CLOSE_PR_REASONS`. -/
def closeReasonRetest : String := "closing and reopening to trigger tests"

/-- The tail of `close_pr` (lines 1149-1196) once the PR record is fetched,
confirmed open, and a motivation message is in hand: print the header,
post the motivation comment (itself dry-run aware), then either print
`[DRY RUN] Closed ...` (and `[DRY RUN] Reopened ...` for a retest) or post
the state change(s). -/
def close_pr_actions (dry_run : Bool) (pr : Nat)
    (pr_target_account pr_target_repo : String) (pr_data : PullRequestData)
    (motivation_msg : String) : ForgeTrace :=
  let header := pr_target_account ++ "/" ++ pr_target_repo ++ " PR #" ++ toString pr
    ++ " was submitted by " ++ pr_data.userLogin
  let reopen := decide (motivation_msg = closeReasonRetest)
  let msg := "@" ++ pr_data.userLogin
    ++ ", this PR is being closed for the following reason(s): " ++ motivation_msg ++ "."
  let msg := if reopen then msg
    else msg ++ " Please do not hesitate to reopen this PR or add a comment if you feel "
      ++ "this contribution is still relevant."
  let t := ForgeTrace.append ⟨[header], [], [], [], 0⟩
    (post_comment_in_issue dry_run pr pr_target_repo msg)
  if dry_run then
    ForgeTrace.append t
      ⟨("[DRY RUN] Closed " ++ pr_target_account ++ "/" ++ pr_target_repo
          ++ " PR #" ++ toString pr) ::
        (if reopen then
          ["[DRY RUN] Reopened " ++ pr_target_account ++ "/" ++ pr_target_repo
            ++ " PR #" ++ toString pr]
         else []),
       [], [], [], 0⟩
  else
    ForgeTrace.append t
      ⟨[], [], (pr, "closed") :: (if reopen then [(pr, "open")] else []), [], 0⟩

/-- The observable effects of one `merge_pr` run. -/
structure MergeRun where
  msgs : List String
  commentPosts : List (Nat × String)
  /-- whether `check_pr_eligible_to_merge` was evaluated -/
  eligibilityChecked : Bool
  /-- the `(pr, commit_message, sha)` of each merge request PUT (line 1265) -/
  mergePuts : List (Nat × String × String)
deriving DecidableEq, Repr

/-- `merge_pr(pr)` (lines 1226-1267): require a configured GitHub user,
fetch the PR record (given here), print the header, refuse to merge ones
own PR, then evaluate eligibility, post the thanks comment, and merge (or
print the dry-run trace). -/
def merge_pr (github_user : Option String) (pr : Nat)
    (pr_target_account pr_target_repo : String) (pr_data : PullRequestData)
    (force dry_run : Bool) : MergeRun × Except String Unit :=
  match github_user with
  | none => (⟨[], [], false, []⟩, .error "GitHub user must be specified to use --merge-pr")
  | some user =>
    let header := pr_target_account ++ "/" ++ pr_target_repo ++ " PR #" ++ toString pr
      ++ " was submitted by " ++ pr_data.userLogin ++ ", you are using GitHub account "
      ++ user
    if pr_data.userLogin = user then
      (⟨[header], [], false, []⟩, .error "Please do not merge your own PRs!")
    else if check_pr_eligible_to_merge pr_data || force then
      let comment := "Going in, thanks @" ++ pr_data.userLogin ++ "!"
      let t := post_comment_in_issue dry_run pr pr_target_repo comment
      if dry_run then
        (⟨header :: t.msgs ++ ["[DRY RUN] Merged " ++ pr_target_account ++ "/"
            ++ pr_target_repo ++ " pull request #" ++ toString pr],
          t.commentPosts, true, []⟩, .ok ())
      else
        (⟨header :: t.msgs, t.commentPosts, true,
          [(pr, pr_data.title, pr_data.headSha)]⟩, .ok ())
    else
      (⟨[header, "Review indicates this PR should not be merged "
          ++ "(use -f/--force to do so anyway)"], [], true, []⟩, .ok ())

/-- A remote whose branches listing resolves `develop` and whose archive
uses the standard `<repo>-<branch>` top-level directory. -/
def cacheRemote : Remote where
  branchesResponse := { status := 200, branches := [⟨"develop", "abc123"⟩] }
  archiveTopDir := "easybuild-easyconfigs-develop"

/-- An empty local filesystem with no downloads performed. -/
def emptyState : IOState := ⟨⟨[], []⟩, 0⟩

/-- A merged pull request. -/
def prMergedExample : PullRequestData where
  number := 9
  baseRef := "develop"
  baseRepoOwner := "easybuilders"
  baseRepoName := "easybuild-easyconfigs"
  statusLastCommit := "success"
  issueComments := []
  reviews := []
  milestone := none
  userLogin := "alice"
  title := "foo 2.0"
  headSha := "45ab"
  merged := true
  state := "closed"
  updatedAt := 0

/-- An open, non-merged pull request. -/
def prOpenExample : PullRequestData where
  number := 10
  baseRef := "develop"
  baseRepoOwner := "easybuilders"
  baseRepoName := "easybuild-easyconfigs"
  statusLastCommit := "pending"
  issueComments := []
  reviews := []
  milestone := none
  userLogin := "alice"
  title := "foo 2.1"
  headSha := "77cd"
  merged := false
  state := "open"
  updatedAt := 0

/-- A closed, non-merged pull request. -/
def prClosedExample : PullRequestData where
  number := 11
  baseRef := "develop"
  baseRepoOwner := "easybuilders"
  baseRepoName := "easybuild-easyconfigs"
  statusLastCommit := "failure"
  issueComments := []
  reviews := []
  milestone := none
  userLogin := "bob"
  title := "foo 2.2"
  headSha := "88ef"
  merged := false
  state := "closed"
  updatedAt := 0

/-- A known easyconfig record declaring one patch. -/
def patchedEC : EasyConfig := ⟨"foo", [.plain "foo-fix.patch"], []⟩

/-- A PR submitted by the same account that is configured as the GitHub
user. -/
def prOwnExample : PullRequestData where
  number := 12
  baseRef := "develop"
  baseRepoOwner := "easybuilders"
  baseRepoName := "easybuild-easyconfigs"
  statusLastCommit := "success"
  issueComments := []
  reviews := [⟨"APPROVED", "carol"⟩]
  milestone := some ⟨"4.3.1"⟩
  userLogin := "boegel"
  title := "foo 2.3"
  headSha := "99aa"
  merged := false
  state := "open"
  updatedAt := 0

/-! ## Theorems -/

theorem scanTestReports_eq_find (l : List Comment) :
    scanTestReports l =
      (l.find? (fun c => matchesTestReportRegex c.body &&
        (strContains c.body "SUCCESS" || strContains c.body "FAILED"))).map
        (fun c => strContains c.body "SUCCESS") := by
  induction l with
  | nil => rfl
  | cons c rest ih =>
    cases hm : matchesTestReportRegex c.body with
    | false => simp [scanTestReports, List.find?, hm, ih]
    | true =>
      cases hs : strContains c.body "SUCCESS" with
      | true => simp [scanTestReports, List.find?, hm, hs]
      | false =>
        cases hf : strContains c.body "FAILED" with
        | true => simp [scanTestReports, List.find?, hm, hs, hf]
        | false => simp [scanTestReports, List.find?, hm, hs, hf, ih]

theorem mem_ite_nil_left {α : Type} (c : Prop) [Decidable c] (a : α) (l : List α) :
    (a ∈ if c then ([] : List α) else l) ↔ ¬c ∧ a ∈ l := by
  split <;> simp_all

theorem obsoleted_list_any_iff (pr : PullRequestData) (prFiles : List PrEasyconfigDict)
    (robotPaths : List RobotPath) :
    (obsoleted_list prFiles robotPaths).any (fun e => strContains pr.title e.name) = true ↔
      ∃ ec ∈ prFiles,
        (∃ rp ∈ robotPaths, ∃ v ∈ rp.pkgWalk ec.name, looseVersionLt ec.version v = true) ∧
        strContains pr.title ec.name = true := by
  simp only [obsoleted_list, List.any_eq_true, List.mem_flatMap, mem_ite_nil_left,
    List.isEmpty_iff, newerVersions, List.mem_singleton, List.filter_eq_nil_iff]
  constructor
  · rintro ⟨e, ⟨ec, hec, rp, hrp, hne, rfl⟩, htitle⟩
    refine ⟨e, hec, ⟨rp, hrp, ?_⟩, htitle⟩
    by_contra hall
    push_neg at hall
    exact hne (by simpa using hall)
  · rintro ⟨ec, hec, ⟨rp, hrp, v, hv, hlt⟩, htitle⟩
    refine ⟨ec, ⟨ec, hec, rp, hrp, ?_, rfl⟩, htitle⟩
    intro hall
    exact absurd hlt (by simpa using hall v hv)

/-- C1, amended: `reasons_for_closing` includes the close reason `obsolete` exactly when some easyconfig changed by the PR has a newer version of the same-named package in the indexed easyconfig tree of some robot path AND that package name occurs as a substring of the PR title (line 1124). -/
theorem reasons_for_closing_obsolete_iff (pr : PullRequestData) (prFiles : List PrEasyconfigDict)
    (robotPaths : List RobotPath) (nowSec : Int) :
    "obsolete" ∈ reasons_for_closing pr prFiles robotPaths nowSec ↔
      ∃ ec ∈ prFiles,
        (∃ rp ∈ robotPaths, ∃ v ∈ rp.pkgWalk ec.name, looseVersionLt ec.version v = true) ∧
        strContains pr.title ec.name = true := by
  rw [← obsoleted_list_any_iff pr prFiles robotPaths]
  unfold reasons_for_closing
  split_ifs with h1 <;>
    · simp_all
      split_ifs with h2 h3 <;>
        simp_all [show ("obsolete" : String) ≠ "inactive" by decide,
          show ("obsolete" : String) ≠ "archived" by decide]

/-- C2, amended: `check_pr_eligible_to_merge` returns true if and only if the base branch is exactly `develop`, the last-commit CI status is exactly `success`, (for the easyconfigs repository) the most recent test-report comment that contains a SUCCESS or FAILED marker contains SUCCESS — header-matching comments containing neither marker are skipped by the scan — at least one review is APPROVED, and a milestone is attached. -/
theorem check_pr_eligible_to_merge_iff (pr : PullRequestData) :
    check_pr_eligible_to_merge pr = true ↔
      (pr.baseRef = "develop" ∧
       pr.statusLastCommit = "success" ∧
       (pr.baseRepoName = GITHUB_EASYCONFIGS_REPO →
         ∃ c, mostRecentDecisiveTestReport pr = some c ∧ strContains c.body "SUCCESS" = true) ∧
       (∃ r ∈ pr.reviews, r.state = "APPROVED") ∧
       pr.milestone.isSome = true) := by
  unfold check_pr_eligible_to_merge mostRecentDecisiveTestReport
  rw [scanTestReports_eq_find]
  rcases hfind : pr.issueComments.reverse.find? (fun c => matchesTestReportRegex c.body &&
      (strContains c.body "SUCCESS" || strContains c.body "FAILED")) with _ | c
  · by_cases hrepo : pr.baseRepoName = GITHUB_EASYCONFIGS_REPO <;>
      · simp [hfind, hrepo]
        try tauto
  · cases hs : strContains c.body "SUCCESS" <;>
      by_cases hrepo : pr.baseRepoName = GITHUB_EASYCONFIGS_REPO <;>
      · simp [hfind, hs, hrepo]
        try tauto

/-! ## Filesystem-model lemmas -/

theorem FS.readFile_mkdirp (fs : FS) (p q : String) :
    (fs.mkdirp p).readFile q = fs.readFile q := by
  unfold FS.mkdirp
  split <;> rfl

theorem FS.readFile_writeFile_self (fs : FS) (p c : String) :
    (fs.writeFile p c).readFile p = some c := by
  simp [FS.writeFile, FS.readFile, List.find?]

theorem find?_filter_ne (l : List (String × String)) (p q : String) (h : q ≠ p) :
    (l.filter (fun e => !(decide (e.1 = p)))).find? (fun e => decide (e.1 = q)) =
      l.find? (fun e => decide (e.1 = q)) := by
  induction l with
  | nil => rfl
  | cons a t ih =>
    by_cases hp : a.1 = p
    · have hq : ¬ (a.1 = q) := by rw [hp]; exact fun hh => h hh.symm
      simp [List.filter_cons, List.find?_cons, hp, hq, ih, Ne.symm h]
    · by_cases hq : a.1 = q <;> simp [List.filter_cons, List.find?_cons, hp, hq, ih, h]

theorem FS.readFile_writeFile_ne (fs : FS) (p q c : String) (h : q ≠ p) :
    (fs.writeFile p c).readFile q = fs.readFile q := by
  simp only [FS.writeFile, FS.readFile, List.find?_cons]
  have : (decide ((p, c).1 = q)) = false := by
    simp only [decide_eq_false_iff_not]
    exact fun hh => h hh.symm
  rw [this, find?_filter_ne _ _ _ h]

theorem FS.isDir_mkdirp_self (fs : FS) (p : String) :
    (fs.mkdirp p).isDir p = true := by
  unfold FS.mkdirp
  split
  · assumption
  · simp [FS.isDir]

theorem markerFresh_mkdirp (fs : FS) (p m s : String) :
    markerFresh (fs.mkdirp p) m s = markerFresh fs m s := by
  unfold markerFresh
  rw [FS.readFile_mkdirp]

theorem markerPath_ne_target (path account repo branch : String) :
    markerPath path account repo branch ≠ pjoin (pjoin path account) (branch ++ ".tar.gz") := by
  intro hcontra
  have hlen := congrArg String.length hcontra
  simp only [markerPath, downloadCachePath, pjoin, String.length_append,
    show ("latest-sha" : String).length = 10 from rfl,
    show (".tar.gz" : String).length = 7 from rfl,
    show ("/" : String).length = 1 from rfl] at hlen
  omega

theorem download_repo_eq_of_ok (repo branch account path : String) (remote : Remote)
    (st : IOState) (sha : String)
    (hsha : fetch_latest_commit_sha repo account remote.branchesResponse branch = .ok sha) :
    download_repo repo branch account path remote st =
      (let path' := pjoin path account
       let st1 : IOState := { st with fs := st.fs.mkdirp path' }
       let expected := pjoin path' (repo ++ "-" ++ branch)
       let marker := pjoin expected "latest-sha"
       if markerFresh st.fs marker sha then (st1, .ok expected)
       else
         let st2 : IOState := { st1 with
           fs := st1.fs.writeFile (pjoin path' (branch ++ ".tar.gz"))
             ("archive of " ++ account ++ "/" ++ repo ++ " at " ++ sha),
           downloads := st1.downloads + 1 }
         let st3 : IOState := { st2 with fs := st2.fs.mkdirp (pjoin path' remote.archiveTopDir) }
         if st3.fs.isDir expected then
           ({ st3 with fs := st3.fs.writeFile marker sha }, .ok expected)
         else
           (st3, .error (expected ++ " should exist and contain the repo " ++ repo
             ++ " at branch " ++ branch))) := by
  unfold download_repo
  rw [hsha]
  simp only [markerFresh_mkdirp]

theorem extractionFS_readFile_marker (repo branch account path : String) (remote : Remote)
    (fs : FS) (sha : String) :
    (extractionFS repo branch account path remote fs sha).readFile
        (markerPath path account repo branch) =
      fs.readFile (markerPath path account repo branch) := by
  unfold extractionFS
  rw [FS.readFile_mkdirp,
    FS.readFile_writeFile_ne _ _ _ _ (markerPath_ne_target path account repo branch),
    FS.readFile_mkdirp]

theorem download_repo_cache_hit (repo branch account path : String) (remote : Remote)
    (st : IOState) (sha : String)
    (hsha : fetch_latest_commit_sha repo account remote.branchesResponse branch = .ok sha)
    (hfresh : markerFresh st.fs (markerPath path account repo branch) sha = true) :
    download_repo repo branch account path remote st =
      ({ st with fs := st.fs.mkdirp (pjoin path account) },
       .ok (downloadCachePath path account repo branch)) := by
  rw [download_repo_eq_of_ok repo branch account path remote st sha hsha]
  simp only [markerPath, downloadCachePath] at hfresh ⊢
  simp [hfresh]

theorem download_repo_cache_miss_downloads (repo branch account path : String)
    (remote : Remote) (st : IOState) (sha : String)
    (hsha : fetch_latest_commit_sha repo account remote.branchesResponse branch = .ok sha)
    (hstale : markerFresh st.fs (markerPath path account repo branch) sha = false) :
    (download_repo repo branch account path remote st).1.downloads = st.downloads + 1 := by
  rw [download_repo_eq_of_ok repo branch account path remote st sha hsha]
  simp only [markerPath, downloadCachePath] at hstale
  simp only [hstale, Bool.false_eq_true, if_false]
  split <;> rfl

theorem download_repo_missing_dir (repo branch account path : String)
    (remote : Remote) (st : IOState) (sha : String)
    (hsha : fetch_latest_commit_sha repo account remote.branchesResponse branch = .ok sha)
    (hstale : markerFresh st.fs (markerPath path account repo branch) sha = false)
    (hdir : (extractionFS repo branch account path remote st.fs sha).isDir
        (downloadCachePath path account repo branch) = false) :
    download_repo repo branch account path remote st =
      (⟨extractionFS repo branch account path remote st.fs sha, st.downloads + 1⟩,
       .error (downloadCachePath path account repo branch
         ++ " should exist and contain the repo " ++ repo ++ " at branch " ++ branch)) := by
  rw [download_repo_eq_of_ok repo branch account path remote st sha hsha]
  simp only [markerPath, downloadCachePath, extractionFS] at hstale hdir ⊢
  simp [hstale, hdir]

theorem download_repo_cache_miss_ok (repo branch account path : String)
    (remote : Remote) (st : IOState) (sha : String)
    (hsha : fetch_latest_commit_sha repo account remote.branchesResponse branch = .ok sha)
    (hstale : markerFresh st.fs (markerPath path account repo branch) sha = false)
    (htop : remote.archiveTopDir = repo ++ "-" ++ branch) :
    download_repo repo branch account path remote st =
      (⟨(extractionFS repo branch account path remote st.fs sha).writeFile
          (markerPath path account repo branch) sha, st.downloads + 1⟩,
       .ok (downloadCachePath path account repo branch)) := by
  rw [download_repo_eq_of_ok repo branch account path remote st sha hsha]
  simp only [markerPath, downloadCachePath, extractionFS] at hstale ⊢
  have hdir : ((((st.fs.mkdirp (pjoin path account)).writeFile
      (pjoin (pjoin path account) (branch ++ ".tar.gz"))
      ("archive of " ++ account ++ "/" ++ repo ++ " at " ++ sha)).mkdirp
      (pjoin (pjoin path account) (repo ++ "-" ++ branch))).isDir
      (pjoin (pjoin path account) (repo ++ "-" ++ branch))) = true :=
    FS.isDir_mkdirp_self _ _
  simp [hstale, htop, hdir]

theorem markerFresh_writeFile_self (fs : FS) (m s : String)
    (hclean : rstrip (firstLine s) = s) :
    markerFresh (fs.writeFile m s) m s = true := by
  unfold markerFresh
  rw [FS.readFile_writeFile_self]
  simp [hclean]

theorem download_repo_idempotent (repo branch account path : String)
    (remote : Remote) (st : IOState) (sha : String)
    (hsha : fetch_latest_commit_sha repo account remote.branchesResponse branch = .ok sha)
    (htop : remote.archiveTopDir = repo ++ "-" ++ branch)
    (hclean : rstrip (firstLine sha) = sha) :
    (download_repo repo branch account path remote st).2 =
        .ok (downloadCachePath path account repo branch) ∧
    (download_repo repo branch account path remote
        (download_repo repo branch account path remote st).1).2 =
      .ok (downloadCachePath path account repo branch) ∧
    (download_repo repo branch account path remote
        (download_repo repo branch account path remote st).1).1.downloads =
      (download_repo repo branch account path remote st).1.downloads ∧
    (download_repo repo branch account path remote st).1.downloads ≤ st.downloads + 1 := by
  cases hfresh : markerFresh st.fs (markerPath path account repo branch) sha
  · -- cache miss on the first call: download, then the marker holds the SHA
    rw [download_repo_cache_miss_ok repo branch account path remote st sha hsha hfresh htop]
    rw [download_repo_cache_hit repo branch account path remote
      ⟨(extractionFS repo branch account path remote st.fs sha).writeFile
        (markerPath path account repo branch) sha, st.downloads + 1⟩ sha hsha
      (markerFresh_writeFile_self _ _ _ hclean)]
    exact ⟨rfl, rfl, rfl, Nat.le_refl _⟩
  · -- cache hit on the first call: no download at all
    rw [download_repo_cache_hit repo branch account path remote st sha hsha hfresh]
    have hfresh1 : markerFresh (st.fs.mkdirp (pjoin path account))
        (markerPath path account repo branch) sha = true := by
      rw [markerFresh_mkdirp]; exact hfresh
    rw [download_repo_cache_hit repo branch account path remote _ sha hsha hfresh1]
    exact ⟨rfl, rfl, rfl, Nat.le_succ _⟩

/-- C3: `download_repo` returns the cached extraction path without any content download exactly when the sidecar marker exists and its first line, trailing whitespace trimmed, equals the freshly fetched tip SHA; otherwise it performs one content fetch, fails fatally when the expected extracted directory does not materialize — leaving the marker unwritten — and writes the new SHA marker only after that verification; consequently two calls with an unchanged tip SHA perform one content fetch in total and return the identical path. -/
theorem download_repo_cache_spec (repo branch account path : String) (remote : Remote)
    (st : IOState) (sha : String)
    (hsha : fetch_latest_commit_sha repo account remote.branchesResponse branch = .ok sha) :
    (markerFresh st.fs (markerPath path account repo branch) sha = true →
      download_repo repo branch account path remote st =
        ({ st with fs := st.fs.mkdirp (pjoin path account) },
         .ok (downloadCachePath path account repo branch))) ∧
    (markerFresh st.fs (markerPath path account repo branch) sha = false →
      (download_repo repo branch account path remote st).1.downloads = st.downloads + 1) ∧
    (markerFresh st.fs (markerPath path account repo branch) sha = false →
      (extractionFS repo branch account path remote st.fs sha).isDir
          (downloadCachePath path account repo branch) = false →
      download_repo repo branch account path remote st =
        (⟨extractionFS repo branch account path remote st.fs sha, st.downloads + 1⟩,
         .error (downloadCachePath path account repo branch
           ++ " should exist and contain the repo " ++ repo ++ " at branch " ++ branch)) ∧
      (download_repo repo branch account path remote st).1.fs.readFile
          (markerPath path account repo branch) =
        st.fs.readFile (markerPath path account repo branch)) ∧
    (markerFresh st.fs (markerPath path account repo branch) sha = false →
      remote.archiveTopDir = repo ++ "-" ++ branch →
      download_repo repo branch account path remote st =
        (⟨(extractionFS repo branch account path remote st.fs sha).writeFile
            (markerPath path account repo branch) sha, st.downloads + 1⟩,
         .ok (downloadCachePath path account repo branch)) ∧
      (download_repo repo branch account path remote st).1.fs.readFile
          (markerPath path account repo branch) = some sha) ∧
    (remote.archiveTopDir = repo ++ "-" ++ branch →
      rstrip (firstLine sha) = sha →
      (download_repo repo branch account path remote st).2 =
          .ok (downloadCachePath path account repo branch) ∧
      (download_repo repo branch account path remote
          (download_repo repo branch account path remote st).1).2 =
        .ok (downloadCachePath path account repo branch) ∧
      (download_repo repo branch account path remote
          (download_repo repo branch account path remote st).1).1.downloads =
        (download_repo repo branch account path remote st).1.downloads ∧
      (download_repo repo branch account path remote st).1.downloads ≤ st.downloads + 1) := by
  refine ⟨fun hf => download_repo_cache_hit repo branch account path remote st sha hsha hf,
    fun hs => download_repo_cache_miss_downloads repo branch account path remote st sha hsha hs,
    fun hs hd => ⟨download_repo_missing_dir repo branch account path remote st sha hsha hs hd, ?_⟩,
    fun hs ht => ⟨download_repo_cache_miss_ok repo branch account path remote st sha hsha hs ht, ?_⟩,
    fun ht hc => download_repo_idempotent repo branch account path remote st sha hsha ht hc⟩
  · rw [download_repo_missing_dir repo branch account path remote st sha hsha hs hd]
    exact extractionFS_readFile_marker repo branch account path remote st.fs sha
  · rw [download_repo_cache_miss_ok repo branch account path remote st sha hsha hs ht]
    exact FS.readFile_writeFile_self _ _ _

/-- C4: in the publish tail of `_easyconfigs_pr_common`, an empty staged diff fails with the empty-change error and performs neither a commit nor a push; the commit and the push happen only when a non-empty diff was observed. -/
theorem stage_commit_push_empty_diff (ecp depp patchp delp : List String)
    (diff_stat commit_msg pr_branch : String) :
    (diff_stat = "" →
      (stage_commit_push ecp depp patchp delp diff_stat commit_msg pr_branch).2 =
          .error ("No changed files found when comparing to current develop branch. "
            ++ "Refused to make empty pull request.") ∧
      (∀ m, GitEvent.committed m ∉
        (stage_commit_push ecp depp patchp delp diff_stat commit_msg pr_branch).1) ∧
      (∀ b, GitEvent.pushed b ∉
        (stage_commit_push ecp depp patchp delp diff_stat commit_msg pr_branch).1)) ∧
    (∀ m, GitEvent.committed m ∈
        (stage_commit_push ecp depp patchp delp diff_stat commit_msg pr_branch).1 →
      diff_stat ≠ "") ∧
    (∀ b, GitEvent.pushed b ∈
        (stage_commit_push ecp depp patchp delp diff_stat commit_msg pr_branch).1 →
      diff_stat ≠ "") ∧
    (diff_stat ≠ "" →
      (stage_commit_push ecp depp patchp delp diff_stat commit_msg pr_branch).2 = .ok () ∧
      GitEvent.committed commit_msg ∈
        (stage_commit_push ecp depp patchp delp diff_stat commit_msg pr_branch).1 ∧
      GitEvent.pushed pr_branch ∈
        (stage_commit_push ecp depp patchp delp diff_stat commit_msg pr_branch).1) := by
  unfold stage_commit_push
  by_cases hd : diff_stat = "" <;>
    by_cases hp : patchp.isEmpty <;>
    by_cases hdel : delp.isEmpty <;>
    simp_all

/-- C5: for a PR whose record has the merged flag set, `fetch_easyconfigs_from_pr` never attempts to apply the PR diff, performs no per-file downloads, and the tree it serves files from is `repo_target_branch` — the freshly acquired current tip of the PR base branch returned by `download_repo`. -/
theorem fetch_merged_pr_uses_base_tip (pr : PullRequestData) (ga path rtb : String)
    (patched : List String) (applyOk : Bool) (hm : pr.merged = true) :
    (fetch_easyconfigs_strategy pr ga path rtb patched applyOk).applyAttempted = false ∧
    (fetch_easyconfigs_strategy pr ga path rtb patched applyOk).perFileDownloads = [] ∧
    (fetch_easyconfigs_strategy pr ga path rtb patched applyOk).finalPath = rtb := by
  simp [fetch_easyconfigs_strategy, hm]

/-- C6: for an open, non-merged PR whose diff fails to apply cleanly, `fetch_easyconfigs_from_pr` does not propagate the failure: it downloads each file named in the diff individually from the raw-content host at the PR head commit SHA into the destination directory; for a closed, non-merged PR it additionally emits the user-visible closed-PR warning (and never attempts the apply). -/
theorem fetch_pr_apply_failure_fallback (pr : PullRequestData) (ga path rtb : String)
    (patched : List String) :
    (pr.state = "open" → pr.merged = false →
      (fetch_easyconfigs_strategy pr ga path rtb patched false).applyAttempted = true ∧
      (fetch_easyconfigs_strategy pr ga path rtb patched false).finalPath = path ∧
      (fetch_easyconfigs_strategy pr ga path rtb patched false).warnedClosedPR = false ∧
      (fetch_easyconfigs_strategy pr ga path rtb patched false).perFileDownloads =
        patched.map (fun pf =>
          (GITHUB_RAW ++ "/" ++ ga ++ "/" ++ GITHUB_EASYCONFIGS_REPO ++ "/"
              ++ pr.headSha ++ "/" ++ pf,
           pjoin path (lastThreeComponents pf)))) ∧
    (∀ applyOk, pr.state = "closed" → pr.merged = false →
      (fetch_easyconfigs_strategy pr ga path rtb patched applyOk).applyAttempted = false ∧
      (fetch_easyconfigs_strategy pr ga path rtb patched applyOk).warnedClosedPR = true ∧
      (fetch_easyconfigs_strategy pr ga path rtb patched applyOk).finalPath = path ∧
      (fetch_easyconfigs_strategy pr ga path rtb patched applyOk).perFileDownloads =
        patched.map (fun pf =>
          (GITHUB_RAW ++ "/" ++ ga ++ "/" ++ GITHUB_EASYCONFIGS_REPO ++ "/"
              ++ pr.headSha ++ "/" ++ pf,
           pjoin path (lastThreeComponents pf)))) := by
  constructor
  · intro hopen hm
    simp [fetch_easyconfigs_strategy, hm, GITHUB_STATE_CLOSED, hopen]
  · intro applyOk hclosed hm
    simp [fetch_easyconfigs_strategy, hm, GITHUB_STATE_CLOSED, hclosed]

theorem sanity_go_ok (path : String) (ex : String → Bool) (l : List String)
    (h : ∀ pf ∈ l, ex (pjoin path (lastThreeComponents pf)) = true) :
    sanity_go path ex l = .ok (l.map (fun pf => pjoin path (lastThreeComponents pf))) := by
  induction l with
  | nil => rfl
  | cons pf rest ih =>
    have hpf := h pf (List.mem_cons_self _ _)
    have hrest := ih (fun q hq => h q (List.mem_cons_of_mem _ hq))
    simp [sanity_go, hpf, hrest, Except.map]

theorem sanity_go_error (path : String) (ex : String → Bool) (l : List String) (e : String)
    (h : sanity_go path ex l = .error e) :
    ∃ pf ∈ l, ex (pjoin path (lastThreeComponents pf)) = false ∧
      e = "Could not find path to patched file " ++ pjoin path (lastThreeComponents pf) := by
  induction l with
  | nil => exact absurd h (by simp [sanity_go])
  | cons pf rest ih =>
    by_cases hpf : ex (pjoin path (lastThreeComponents pf)) = true
    · simp only [sanity_go, hpf, if_true] at h
      rcases hr : sanity_go path ex rest with e' | l'
      · rw [hr] at h
        simp only [Except.map] at h
        cases h
        obtain ⟨q, hq, hexq, he⟩ := ih hr
        exact ⟨q, List.mem_cons_of_mem _ hq, hexq, he⟩
      · rw [hr] at h
        simp [Except.map] at h
    · refine ⟨pf, List.mem_cons_self _ _, by simpa using hpf, ?_⟩
      simp only [sanity_go, hpf, if_false] at h
      cases h
      rfl

theorem sanity_go_missing (path : String) (ex : String → Bool) (l : List String)
    (h : ∃ pf ∈ l, ex (pjoin path (lastThreeComponents pf)) = false) :
    ∃ e, sanity_go path ex l = .error e := by
  induction l with
  | nil => simp at h
  | cons pf rest ih =>
    by_cases hpf : ex (pjoin path (lastThreeComponents pf)) = true
    · obtain ⟨q, hq, hexq⟩ := h
      rcases List.mem_cons.mp hq with rfl | hq'
      · rw [hpf] at hexq; cases hexq
      · obtain ⟨e, he⟩ := ih ⟨q, hq', hexq⟩
        exact ⟨e, by simp [sanity_go, hpf, he, Except.map]⟩
    · exact ⟨"Could not find path to patched file " ++ pjoin path (lastThreeComponents pf),
        by simp [sanity_go, hpf]⟩

/-- C7: after reconstruction, every file named in the PR diff that does not start with `test/` is checked for existence at its expected path under the destination; when all exist, exactly that list of paths is returned, and when one is absent a fatal error naming the missing path is raised. -/
theorem sanity_check_files_spec (path : String) (patched : List String) (ex : String → Bool) :
    ((∀ pf ∈ patched.filter (fun f => !(strStartsWith f "test/")),
        ex (pjoin path (lastThreeComponents pf)) = true) →
      sanity_check_files path patched ex =
        .ok ((patched.filter (fun f => !(strStartsWith f "test/"))).map
          (fun pf => pjoin path (lastThreeComponents pf)))) ∧
    (∀ e, sanity_check_files path patched ex = .error e →
      ∃ pf ∈ patched.filter (fun f => !(strStartsWith f "test/")),
        ex (pjoin path (lastThreeComponents pf)) = false ∧
        e = "Could not find path to patched file " ++ pjoin path (lastThreeComponents pf)) ∧
    ((∃ pf ∈ patched.filter (fun f => !(strStartsWith f "test/")),
        ex (pjoin path (lastThreeComponents pf)) = false) →
      ∃ e, sanity_check_files path patched ex = .error e) := by
  unfold sanity_check_files
  exact ⟨fun h => sanity_go_ok _ _ _ h,
    fun e he => sanity_go_error _ _ _ _ he,
    fun h => sanity_go_missing _ _ _ h⟩

theorem det_patch_specs_mem (pps : List String) (ecs : List EasyConfig)
    (dirs : List (List ScanFile)) (specs : List ((String × String) × Bool))
    (h : det_patch_specs pps ecs dirs = .ok specs) :
    ∀ pp ∈ pps, ∃ r, det_patch_spec1 pp ecs dirs = .ok r ∧ r ∈ specs := by
  induction pps generalizing specs with
  | nil => simp
  | cons pp rest ih =>
    intro q hq
    simp only [det_patch_specs] at h
    rcases h1 : det_patch_spec1 pp ecs dirs with e | r
    · rw [h1] at h; cases h
    · rw [h1] at h
      rcases h2 : det_patch_specs rest ecs dirs with e' | specs'
      · rw [h2] at h; simp [Except.map] at h
      · rw [h2] at h
        simp only [Except.map] at h
        cases h
        rcases List.mem_cons.mp hq with rfl | hq'
        · exact ⟨r, h1, List.mem_cons_self _ _⟩
        · obtain ⟨r', hr1, hr2⟩ := ih specs' h2 q hq'
          exact ⟨r', hr1, List.mem_cons_of_mem _ hr2⟩

theorem det_patch_specs_error_of_unresolved (pps : List String) (ecs : List EasyConfig)
    (dirs : List (List ScanFile))
    (h : ∃ pp ∈ pps, ecs.find? (fun ec => is_patch_for (basename pp) ec) = none ∧
      find_software_name_for_patch (basename pp) dirs = none) :
    ∃ e, det_patch_specs pps ecs dirs = .error e ∧
      ∃ pp ∈ pps,
        ecs.find? (fun ec => is_patch_for (basename pp) ec) = none ∧
        find_software_name_for_patch (basename pp) dirs = none ∧
        e = "Failed to determine software name to which patch file " ++ pp ++ " relates" := by
  induction pps with
  | nil => simp at h
  | cons pp rest ih =>
    obtain ⟨q, hq, hfind, hscan⟩ := h
    rcases h1 : det_patch_spec1 pp ecs dirs with e | r
    · refine ⟨e, by simp [det_patch_specs, h1], ?_⟩
      -- the error raised is for the first unresolved file in the list
      simp only [det_patch_spec1] at h1
      rcases hf : ecs.find? (fun ec => is_patch_for (basename pp) ec) with _ | ec
      · rw [hf] at h1
        rcases hs : find_software_name_for_patch (basename pp) dirs with _ | n
        · rw [hs] at h1
          cases h1
          exact ⟨pp, List.mem_cons_self _ _, hf, hs, rfl⟩
        · rw [hs] at h1; cases h1
      · rw [hf] at h1; cases h1
    · rcases List.mem_cons.mp hq with rfl | hq'
      · exfalso
        simp only [det_patch_spec1] at h1
        rw [hfind, hscan] at h1
        cases h1
      · obtain ⟨e, he, q', hq'', hrest⟩ := ih ⟨q, hq', hfind, hscan⟩
        refine ⟨e, ?_, q', List.mem_cons_of_mem _ hq'', hrest⟩
        simp [det_patch_specs, h1, he, Except.map]

/-- C8: `det_patch_specs` attributes a patch file to the first already-known easyconfig record whose patch list declares it (patches declared for extensions in `exts_list` included), and then the exhaustive scan is never run; only when no known record matches is the scan over the search roots performed, and when that also finds no owner the function fails with an error naming the unresolved patch file. -/
theorem det_patch_specs_spec :
    (∀ (pp : String) (ecs : List EasyConfig) (dirs : List (List ScanFile)),
      (∃ ec ∈ ecs, is_patch_for (basename pp) ec = true) →
      ∃ ec, ecs.find? (fun ec => is_patch_for (basename pp) ec) = some ec ∧
        det_patch_spec1 pp ecs dirs = .ok ((pp, ec.name), false)) ∧
    (∀ (pp : String) (ecs : List EasyConfig) (dirs : List (List ScanFile)) (n : String),
      ecs.find? (fun ec => is_patch_for (basename pp) ec) = none →
      find_software_name_for_patch (basename pp) dirs = some n →
      det_patch_spec1 pp ecs dirs = .ok ((pp, n), true)) ∧
    (∀ (pp : String) (ecs : List EasyConfig) (dirs : List (List ScanFile)),
      ecs.find? (fun ec => is_patch_for (basename pp) ec) = none →
      find_software_name_for_patch (basename pp) dirs = none →
      det_patch_spec1 pp ecs dirs = .error
        ("Failed to determine software name to which patch file " ++ pp ++ " relates")) ∧
    (∀ (fn : String) (ec : EasyConfig) (p : PatchEntry),
      p ∈ extensionPatches ec → p.filename = fn → is_patch_for fn ec = true) ∧
    (∀ (pps : List String) (ecs : List EasyConfig) (dirs : List (List ScanFile)) specs,
      det_patch_specs pps ecs dirs = .ok specs →
      ∀ pp ∈ pps, (∃ ec ∈ ecs, is_patch_for (basename pp) ec = true) →
        ∃ ec, ecs.find? (fun ec => is_patch_for (basename pp) ec) = some ec ∧
          ((pp, ec.name), false) ∈ specs) ∧
    (∀ (pps : List String) (ecs : List EasyConfig) (dirs : List (List ScanFile)),
      (∃ pp ∈ pps, ecs.find? (fun ec => is_patch_for (basename pp) ec) = none ∧
        find_software_name_for_patch (basename pp) dirs = none) →
      ∃ e, det_patch_specs pps ecs dirs = .error e ∧
        ∃ pp ∈ pps,
          e = "Failed to determine software name to which patch file " ++ pp ++ " relates") := by
  have known : ∀ (pp : String) (ecs : List EasyConfig) (dirs : List (List ScanFile)),
      (∃ ec ∈ ecs, is_patch_for (basename pp) ec = true) →
      ∃ ec, ecs.find? (fun ec => is_patch_for (basename pp) ec) = some ec ∧
        det_patch_spec1 pp ecs dirs = .ok ((pp, ec.name), false) := by
    intro pp ecs dirs hex
    have hsome : (ecs.find? (fun ec => is_patch_for (basename pp) ec)).isSome := by
      rw [List.find?_isSome]
      obtain ⟨ec, hec, hp⟩ := hex
      exact ⟨ec, hec, hp⟩
    obtain ⟨ec, heq⟩ := Option.isSome_iff_exists.mp hsome
    exact ⟨ec, heq, by simp [det_patch_spec1, heq]⟩
  refine ⟨known, ?_, ?_, ?_, ?_, ?_⟩
  · intro pp ecs dirs n hf hs
    simp [det_patch_spec1, hf, hs]
  · intro pp ecs dirs hf hs
    simp [det_patch_spec1, hf, hs]
  · intro fn ec p hp hfn
    unfold is_patch_for
    rw [List.any_eq_true]
    exact ⟨p, List.mem_append_right _ hp, by simp [hfn]⟩
  · intro pps ecs dirs specs hok pp hpp hex
    obtain ⟨ec, heq, hdet⟩ := known pp ecs dirs hex
    obtain ⟨r, hr1, hr2⟩ := det_patch_specs_mem pps ecs dirs specs hok pp hpp
    rw [hdet] at hr1
    cases hr1
    exact ⟨ec, heq, hr2⟩
  · intro pps ecs dirs hex
    obtain ⟨e, he, pp, hpp, _, _, hmsg⟩ :=
      det_patch_specs_error_of_unresolved pps ecs dirs hex
    exact ⟨e, he, pp, hpp, hmsg⟩

/-- C9: with the dry-run option set, no state-mutating forge or push call is performed: `post_comment_in_issue` prints the same message with a `[DRY RUN]` prefix and posts nothing; `push_branch_to_github` creates the local remote at the same call site in both modes, prints the push message with a `[DRY RUN]` suffix and pushes nothing; `close_pr` posts neither the motivation comment nor the state change and prints the `[DRY RUN] Closed` trace instead, while the preceding steps (header message, comment message body) match the real run. -/
theorem dry_run_no_mutation (issue : Nat) (repo txt ta tr branch rname pacc prepo motiv : String)
    (pr : Nat) (prd : PullRequestData) :
    ((post_comment_in_issue true issue repo txt).commentPosts = [] ∧
     (post_comment_in_issue true issue repo txt).msgs =
       (post_comment_in_issue false issue repo txt).msgs.map (fun m => "[DRY RUN] " ++ m) ∧
     (post_comment_in_issue false issue repo txt).commentPosts = [(issue, txt)]) ∧
    ((push_branch_to_github true ta tr branch rname).pushes = [] ∧
     (push_branch_to_github true ta tr branch rname).remotesCreated =
       (push_branch_to_github false ta tr branch rname).remotesCreated ∧
     (push_branch_to_github true ta tr branch rname).msgs =
       (push_branch_to_github false ta tr branch rname).msgs.map
         (fun m => m ++ " [DRY RUN]") ∧
     (push_branch_to_github false ta tr branch rname).pushes = [branch]) ∧
    ((close_pr_actions true pr pacc prepo prd motiv).statePosts = [] ∧
     (close_pr_actions true pr pacc prepo prd motiv).commentPosts = [] ∧
     (close_pr_actions true pr pacc prepo prd motiv).pushes = [] ∧
     (close_pr_actions true pr pacc prepo prd motiv).msgs.head? =
       (close_pr_actions false pr pacc prepo prd motiv).msgs.head? ∧
     (close_pr_actions true pr pacc prepo prd motiv).msgs[1]? =
       ((close_pr_actions false pr pacc prepo prd motiv).msgs[1]?).map
         (fun m => "[DRY RUN] " ++ m) ∧
     ("[DRY RUN] Closed " ++ pacc ++ "/" ++ prepo ++ " PR #" ++ toString pr) ∈
       (close_pr_actions true pr pacc prepo prd motiv).msgs ∧
     (close_pr_actions false pr pacc prepo prd motiv).statePosts =
       (pr, "closed") :: (if motiv = closeReasonRetest then [(pr, "open")] else [])) := by
  refine ⟨⟨rfl, rfl, rfl⟩, ⟨rfl, rfl, rfl, rfl⟩, ?_⟩
  by_cases hre : motiv = closeReasonRetest <;>
    simp [close_pr_actions, post_comment_in_issue, ForgeTrace.append, hre]

/-- C10: when the PR author login equals the configured GitHub user, `merge_pr` fails with the own-PR error before the eligibility check, before any comment is posted and before any merge request is sent, regardless of the force and dry-run flags. -/
theorem merge_pr_own_pr_refused (user : String) (pr : Nat) (acc repo : String)
    (prd : PullRequestData) (force dry_run : Bool) (h : prd.userLogin = user) :
    (merge_pr (some user) pr acc repo prd force dry_run).2 =
      .error "Please do not merge your own PRs!" ∧
    (merge_pr (some user) pr acc repo prd force dry_run).1.eligibilityChecked = false ∧
    (merge_pr (some user) pr acc repo prd force dry_run).1.commentPosts = [] ∧
    (merge_pr (some user) pr acc repo prd force dry_run).1.mergePuts = [] := by
  simp [merge_pr, h]

/-- C1, counterexample to the claim as stated: for a PR that changes `foo` version 1.0 while `foo` 2.0 exists in the indexed tree, `obsolete` is not among the returned reasons because the PR title does not mention `foo` — the result is not independent of the other PR metadata. -/
theorem reasons_for_closing_obsolete_counterexample :
    (∃ rp ∈ [robotPathFoo], ∃ v ∈ rp.pkgWalk prFileFoo.name,
      looseVersionLt prFileFoo.version v = true) ∧
    "obsolete" ∉ reasons_for_closing prObsoleteNoTitleMatch [prFileFoo] [robotPathFoo] 0 := by
  decide

/-- C2, counterexample to the claim as stated: a PR whose newest test-report comment contains neither marker while an older test report says SUCCESS is eligible per the code, yet the claim criteria — the most recent comment matching the test-report header must contain SUCCESS — are not met. -/
theorem check_pr_eligible_to_merge_counterexample :
    check_pr_eligible_to_merge prWithSkippedReport = true ∧
    eligibleAsClaimed prWithSkippedReport = false := by
  decide

/-- The comment scan returns the verdict of the most recent test-report
comment that contains a SUCCESS or FAILED marker. -/

theorem download_repo_cache_spec_witness :
    (download_repo GITHUB_EASYCONFIGS_REPO "develop" "easybuilders" "/tmp"
        cacheRemote emptyState).2 =
      .ok (downloadCachePath "/tmp" "easybuilders" GITHUB_EASYCONFIGS_REPO "develop") ∧
    (download_repo GITHUB_EASYCONFIGS_REPO "develop" "easybuilders" "/tmp" cacheRemote
        (download_repo GITHUB_EASYCONFIGS_REPO "develop" "easybuilders" "/tmp"
          cacheRemote emptyState).1).1.downloads =
      (download_repo GITHUB_EASYCONFIGS_REPO "develop" "easybuilders" "/tmp"
        cacheRemote emptyState).1.downloads := by
  have h := (download_repo_cache_spec GITHUB_EASYCONFIGS_REPO "develop" "easybuilders" "/tmp"
    cacheRemote emptyState "abc123" rfl).2.2.2.2 (by decide) (by decide)
  exact ⟨h.1, h.2.2.1⟩

theorem stage_commit_push_empty_diff_witness :
    (stage_commit_push ["easybuild/easyconfigs/f/foo/foo.eb"] [] [] [] "" "msg" "b").2 =
      .error ("No changed files found when comparing to current develop branch. "
        ++ "Refused to make empty pull request.") ∧
    (stage_commit_push ["easybuild/easyconfigs/f/foo/foo.eb"] [] [] []
      " 1 file changed" "msg" "b").2 = .ok () :=
  ⟨((stage_commit_push_empty_diff ["easybuild/easyconfigs/f/foo/foo.eb"] [] [] [] "" "msg" "b").1 rfl).1,
   ((stage_commit_push_empty_diff ["easybuild/easyconfigs/f/foo/foo.eb"] [] [] []
      " 1 file changed" "msg" "b").2.2.2 (by decide)).1⟩

theorem fetch_merged_pr_uses_base_tip_witness :
    (fetch_easyconfigs_strategy prMergedExample "easybuilders" "/tmp/pr" "/tmp/repo"
      ["easybuild/easyconfigs/f/foo/foo.eb"] false).applyAttempted = false ∧
    (fetch_easyconfigs_strategy prMergedExample "easybuilders" "/tmp/pr" "/tmp/repo"
      ["easybuild/easyconfigs/f/foo/foo.eb"] false).perFileDownloads = [] ∧
    (fetch_easyconfigs_strategy prMergedExample "easybuilders" "/tmp/pr" "/tmp/repo"
      ["easybuild/easyconfigs/f/foo/foo.eb"] false).finalPath = "/tmp/repo" :=
  fetch_merged_pr_uses_base_tip prMergedExample "easybuilders" "/tmp/pr" "/tmp/repo"
    ["easybuild/easyconfigs/f/foo/foo.eb"] false rfl

theorem fetch_pr_apply_failure_fallback_witness :
    (fetch_easyconfigs_strategy prOpenExample "easybuilders" "/tmp/pr" "/tmp/repo"
      ["easybuild/easyconfigs/f/foo/foo.eb"] false).perFileDownloads =
      [("https://raw.githubusercontent.com/easybuilders/easybuild-easyconfigs/77cd/"
          ++ "easybuild/easyconfigs/f/foo/foo.eb",
        "/tmp/pr/f/foo/foo.eb")] ∧
    (fetch_easyconfigs_strategy prClosedExample "easybuilders" "/tmp/pr" "/tmp/repo"
      ["easybuild/easyconfigs/f/foo/foo.eb"] true).warnedClosedPR = true := by
  have h1 := ((fetch_pr_apply_failure_fallback prOpenExample "easybuilders" "/tmp/pr" "/tmp/repo"
    ["easybuild/easyconfigs/f/foo/foo.eb"]).1 rfl rfl).2.2.2
  have h2 := ((fetch_pr_apply_failure_fallback prClosedExample "easybuilders" "/tmp/pr" "/tmp/repo"
    ["easybuild/easyconfigs/f/foo/foo.eb"]).2 true rfl rfl).2.1
  refine ⟨?_, h2⟩
  rw [h1]
  decide

theorem sanity_check_files_spec_witness :
    sanity_check_files "/tmp/pr" ["easybuild/easyconfigs/f/foo/foo.eb", "test/x.py"]
      (fun _ => true) = .ok ["/tmp/pr/f/foo/foo.eb"] := by
  have h := (sanity_check_files_spec "/tmp/pr" ["easybuild/easyconfigs/f/foo/foo.eb", "test/x.py"]
    (fun _ => true)).1 (by decide)
  rw [h]
  rfl

theorem det_patch_specs_spec_witness :
    det_patch_spec1 "some/dir/foo-fix.patch" [patchedEC] [] =
      .ok (("some/dir/foo-fix.patch", "foo"), false) := by
  obtain ⟨ec, heq, hdet⟩ := (det_patch_specs_spec).1 "some/dir/foo-fix.patch" [patchedEC] []
    ⟨patchedEC, by decide, by decide⟩
  have hfind : List.find? (fun ec => is_patch_for (basename "some/dir/foo-fix.patch") ec)
      [patchedEC] = some patchedEC := by decide
  rw [hfind] at heq
  cases heq
  exact hdet

theorem merge_pr_own_pr_refused_witness :
    (merge_pr (some "boegel") 12 "easybuilders" "easybuild-easyconfigs"
        prOwnExample true true).2 = .error "Please do not merge your own PRs!" ∧
    (merge_pr (some "boegel") 12 "easybuilders" "easybuild-easyconfigs"
        prOwnExample true true).1.eligibilityChecked = false ∧
    (merge_pr (some "boegel") 12 "easybuilders" "easybuild-easyconfigs"
        prOwnExample true true).1.commentPosts = [] ∧
    (merge_pr (some "boegel") 12 "easybuilders" "easybuild-easyconfigs"
        prOwnExample true true).1.mergePuts = [] :=
  merge_pr_own_pr_refused "boegel" 12 "easybuilders" "easybuild-easyconfigs" prOwnExample true true rfl
